import Mathlib

/-!
# Verification of the notifica-node resilient request engine and webhook verifier

Shallow embedding of the core of the `@notifica/node` SDK:

* `src/errors.ts` — the error taxonomy (`NotificaError`, `ApiError`,
  `ValidationError`, `RateLimitError`, `TimeoutError`);
* `src/client.ts` — the retry loop of `NotificaClient.request`, the backoff
  policy `NotificaClient.backoff`, header construction
  `NotificaClient.buildHeaders`, and the pagination iterator
  `NotificaClient.paginate`;
* `src/resources/notifications.ts` (the `Webhooks` class) — `verify`,
  `toHex` and `timingSafeEqual`.

Modelling conventions:

* JavaScript numbers that matter (retry hints, delays, `Math.random()`) are
  rationals (`ℚ`); HTTP statuses and counters are `Nat`.
* JavaScript strings are Lean `String`s; where the source observes UTF-16
  code units (`.length`, `.charCodeAt`) we use `strUtf16`, and where it
  observes UTF-8 bytes (`TextEncoder.encode`) we use `utf8Encode`.
* The external `fetch` is an environment `Nat → FetchOutcome` giving the
  outcome of each attempt; `crypto.subtle` HMAC-SHA256 is an oracle
  `Crypto` whose `none` result models an internal crypto exception.
* A thrown exception is a `ReqResult.thrown`/`ReqResult.thrownRaw` value;
  the engine's timer bookkeeping and number of issued HTTP calls are
  recorded in a `ReqTrace`.
-/

namespace Notifica

/-- Field-level validation details: field name to list of messages
(`Record<string, string[]>` in the source). -/
abbrev Details := List (String × List String)

/-- The error taxonomy of `src/errors.ts`.  Each constructor is one class:
`NotificaError`, `ApiError`, `ValidationError` (an `ApiError` fixed to
status 422 / code `validation_failed`), `RateLimitError` (status 429 /
code `rate_limit_exceeded`, plus `retryAfter` seconds or `null`), and
`TimeoutError` (carrying the timeout in ms that was used). -/
inductive NError where
  | notificaError (message : String)
  | apiError (message : String) (status : Nat) (code : String)
      (details : Details) (requestId : Option String)
  | validationError (message : String) (details : Details) (requestId : Option String)
  | rateLimitError (message : String) (retryAfter : Option ℚ) (requestId : Option String)
  | timeoutError (timeoutMs : Nat)
  deriving Repr, DecidableEq

/-- HTTP status carried by an error value (`ApiError.status`; the
`ValidationError` and `RateLimitError` constructors fix it to 422 / 429). -/
def NError.statusOf : NError → Option Nat
  | .apiError _ s _ _ _ => some s
  | .validationError _ _ _ => some 422
  | .rateLimitError _ _ _ => some 429
  | _ => none

/-- Machine-readable code carried by an error value (`ApiError.code`; fixed
to `validation_failed` / `rate_limit_exceeded` by the subclasses). -/
def NError.codeOf : NError → Option String
  | .apiError _ _ c _ _ => some c
  | .validationError _ _ _ => some "validation_failed"
  | .rateLimitError _ _ _ => some "rate_limit_exceeded"
  | _ => none

/-- The `lastError` variable of the retry loop: either one of the SDK's own
error values or a raw (non-`NotificaError`) JavaScript error, kept only by
its message. -/
inductive LastErr where
  | nerr (e : NError)
  | raw (message : String)
  deriving Repr, DecidableEq

/-- JavaScript truthiness of an optional string (`undefined`, `null` and
`""` are falsy). -/
def jsTruthyOptStr : Option String → Bool
  | some s => decide (s ≠ "")
  | none => false

-- ── UTF-16 / UTF-8 views of strings ─────────────────

/-- UTF-16 code units of one scalar value: BMP characters give one unit,
astral characters a surrogate pair.  This is what JavaScript `.charCodeAt`
and `.length` observe. -/
def utf16Units (c : Char) : List Nat :=
  if c.toNat < 0x10000 then [c.toNat]
  else
    [0xD800 + (c.toNat - 0x10000) / 0x400, 0xDC00 + (c.toNat - 0x10000) % 0x400]

/-- A JavaScript string viewed as its UTF-16 code-unit sequence. -/
def strUtf16 (s : String) : List Nat := s.data.flatMap utf16Units

/-- UTF-8 bytes of one scalar value (what `TextEncoder` produces). -/
def utf8Units (c : Char) : List Nat :=
  let n := c.toNat
  if n < 0x80 then [n]
  else if n < 0x800 then [0xC0 + n / 0x40, 0x80 + n % 0x40]
  else if n < 0x10000 then
    [0xE0 + n / 0x1000, 0x80 + (n / 0x40) % 0x40, 0x80 + n % 0x40]
  else
    [0xF0 + n / 0x40000, 0x80 + (n / 0x1000) % 0x40,
     0x80 + (n / 0x40) % 0x40, 0x80 + n % 0x40]

/-- `new TextEncoder().encode(s)`: the UTF-8 bytes of a string. -/
def utf8Encode (s : String) : List Nat := s.data.flatMap utf8Units

-- ── Webhooks.timingSafeEqual ────────────────────────

/-- The XOR-accumulating loop of `Webhooks.timingSafeEqual`: starting from
`result = 0`, every position contributes `result |= a[i] ^ b[i]`. -/
def xorAccum (ua ub : List Nat) : Nat :=
  (List.zipWith (fun x y => x ^^^ y) ua ub).foldl (fun r d => r ||| d) 0

/-- `Webhooks.timingSafeEqual` (notifications.ts:257-265): strings of
unequal length compare `false` immediately; otherwise the mismatch flag is
OR-accumulated over every UTF-16 position and the result is whether the
flag ended at zero. -/
def timingSafeEqual (a b : String) : Bool :=
  let ua := strUtf16 a
  let ub := strUtf16 b
  if ua.length ≠ ub.length then false
  else xorAccum ua ub == 0

-- ── Webhooks.toHex and verify ───────────────────────

/-- JavaScript `b.toString(16)` for a non-negative number: lowercase hex
digits, `"0"` for zero. -/
def jsToString16 (b : Nat) : String := String.mk (Nat.toDigits 16 b)

/-- JavaScript `s.padStart(2, '0')`. -/
def padStart2 (s : String) : String :=
  if s.length < 2 then String.mk (List.replicate (2 - s.length) '0' ++ s.data) else s

/-- `Webhooks.toHex` (notifications.ts:248-252): each byte rendered as two
lowercase hex characters, concatenated. -/
def toHex (bytes : List Nat) : String :=
  String.join (bytes.map (fun b => padStart2 (jsToString16 b)))

/-- The webhook payload: a string, or raw bytes (`ArrayBuffer` and
`Uint8Array` are both byte payloads). -/
inductive Payload where
  | str (s : String)
  | bytes (b : List Nat)
  deriving Repr, DecidableEq

/-- JavaScript truthiness of the payload argument: only the empty *string*
is falsy — byte objects are always truthy, even when empty. -/
def Payload.isTruthy : Payload → Bool
  | .str s => decide (s ≠ "")
  | .bytes _ => true

/-- The raw bytes handed to HMAC: strings are UTF-8 encoded, byte payloads
are used as-is. -/
def Payload.toBytes : Payload → List Nat
  | .str s => utf8Encode s
  | .bytes b => b

/-- The `crypto.subtle` oracle: `hmacSha256 key message` is the HMAC-SHA256
digest, or `none` when the platform crypto throws (key import or signing
failure). -/
structure Crypto where
  hmacSha256 : List Nat → List Nat → Option (List Nat)

/-- Instrumented `Webhooks.verify` (notifications.ts:198-231): the boolean
result paired with the number of HMAC digests computed.  The truthiness
guard short-circuits with no digest; inside the `try`, a crypto failure is
caught and yields `false`; otherwise the hex rendering of the digest is
compared with the signature by `timingSafeEqual`. -/
def verifyTrace (c : Crypto) (payload : Payload) (signature secret : String) :
    Bool × Nat :=
  if payload.isTruthy = false ∨ signature = "" ∨ secret = "" then (false, 0)
  else
    match c.hmacSha256 (utf8Encode secret) payload.toBytes with
    | none => (false, 1)
    | some digest => (timingSafeEqual (toHex digest) signature, 1)

/-- `Webhooks.verify`: just the boolean. -/
def verify (c : Crypto) (payload : Payload) (signature secret : String) : Bool :=
  (verifyTrace c payload signature secret).1

/-- `Webhooks.verifyOrThrow` (notifications.ts:237-246): `none` on success,
the thrown `NotificaError` otherwise. -/
def verifyOrThrow (c : Crypto) (payload : Payload) (signature secret : String) :
    Option NError :=
  if verify c payload signature secret then none
  else some (.notificaError "Invalid webhook signature")

-- ── Backoff policy ──────────────────────────────────

/-- Whether `lastError` is a `RateLimitError` carrying a non-null
`retryAfter` hint (the guard of `NotificaClient.backoff`). -/
def hasRetryHint : Option LastErr → Bool
  | some (.nerr (.rateLimitError _ (some _) _)) => true
  | _ => false

/-- `NotificaClient.backoff` (client.ts:290-304) as a pure delay in ms.
`rand` stands for the `Math.random()` draw in `[0,1)`.  A rate-limit hint
takes precedence: delay is the hint in seconds times 1000.  Otherwise the
delay is `base + rand * base * 0.5` with `base = 500 * 2^(attempt-1)`. -/
def backoffDelayMs (attempt : Nat) (lastError : Option LastErr) (rand : ℚ) : ℚ :=
  match lastError with
  | some (.nerr (.rateLimitError _ (some retryAfter) _)) => retryAfter * 1000
  | _ =>
    let base : ℚ := 500 * 2 ^ (attempt - 1)
    let jitter : ℚ := rand * base * (1/2)
    base + jitter

-- ── Client config, request options, headers ─────────

/-- The readonly fields of `NotificaClient` after construction. -/
structure Config where
  apiKey : String
  baseUrl : String
  timeout : Nat
  maxRetries : Nat
  autoIdempotency : Bool
  deriving Repr, DecidableEq

/-- Per-call `RequestOptions` (types/common.ts); the abort signal is
modelled separately in the request loop. -/
structure ReqOptions where
  idempotencyKey : Option String := none
  timeout : Option Nat := none
  deriving Repr, DecidableEq

/-- The caller-supplied idempotency key as the source reads it
(`options?.idempotencyKey`). -/
def optIdemKey (options : Option ReqOptions) : Option String :=
  options.bind ReqOptions.idempotencyKey

/-- `NotificaClient.buildHeaders` (client.ts:262-280).  `genKey` is the
value `generateIdempotencyKey()` would return for this call (a fresh UUID
or timestamp-random fallback).  For `POST` only: a truthy caller-supplied
key wins, else an auto-generated key when `autoIdempotency` is enabled,
else no header. -/
def buildHeaders (cfg : Config) (method : String) (options : Option ReqOptions)
    (genKey : String) : List (String × String) :=
  let headers := [("Authorization", "Bearer " ++ cfg.apiKey),
                  ("Content-Type", "application/json"),
                  ("Accept", "application/json"),
                  ("User-Agent", "@notifica/node/0.1.0")]
  if method = "POST" then
    if jsTruthyOptStr (optIdemKey options) then
      headers ++ [("Idempotency-Key", (optIdemKey options).getD "")]
    else if cfg.autoIdempotency then
      headers ++ [("Idempotency-Key", genKey)]
    else headers
  else headers

/-- Header-record lookup (all keys in `buildHeaders` are distinct). -/
def getHeader (headers : List (String × String)) (key : String) : Option String :=
  (headers.find? (fun p => p.1 == key)).map (fun p => p.2)

-- ── The request engine ──────────────────────────────

/-- The inner object of the error envelope `{ error: { code?, message?,
details? } }`; every field may be absent. -/
structure ErrInner where
  code : Option String := none
  message : Option String := none
  details : Option Details := none
  deriving Repr, DecidableEq

/-- A (possibly empty) error envelope body: `{ error?: ... }`. -/
structure ErrBody where
  error : Option ErrInner := none
  deriving Repr, DecidableEq

/-- `errorBody?.error?.message ?? d` (the body is `none` when
`safeParseJson` swallowed a parse failure). -/
def msgOrD (b : Option ErrBody) (d : String) : String :=
  ((b.bind ErrBody.error).bind ErrInner.message).getD d

/-- `errorBody?.error?.code ?? d`. -/
def codeOrD (b : Option ErrBody) (d : String) : String :=
  ((b.bind ErrBody.error).bind ErrInner.code).getD d

/-- `errorBody?.error?.details ?? {}`. -/
def detailsOrD (b : Option ErrBody) : Details :=
  ((b.bind ErrBody.error).bind ErrInner.details).getD []

/-- Decidable equality for `Except` results (needed to derive it for
`FetchOutcome`). -/
instance {ε α : Type} [DecidableEq ε] [DecidableEq α] : DecidableEq (Except ε α) :=
  fun a b =>
    match a, b with
    | .ok x, .ok y =>
      if h : x = y then .isTrue (by rw [h])
      else .isFalse (fun hc => h (Except.ok.inj hc))
    | .error x, .error y =>
      if h : x = y then .isTrue (by rw [h])
      else .isFalse (fun hc => h (Except.error.inj hc))
    | .ok _, .error _ => .isFalse (fun hc => Except.noConfusion hc)
    | .error _, .ok _ => .isFalse (fun hc => Except.noConfusion hc)

/-- What one `fetch` call produced: a response (status, the result of
`response.json()` — `Except.error m` when parsing throws a `SyntaxError m` —
the parsed `Retry-After` hint, and the `x-request-id` header), an
`AbortError` (timeout/cancel fired mid-flight), or some other thrown
network error. -/
inductive FetchOutcome where
  | response (status : Nat) (json : Except String ErrBody)
      (retryAfter : Option ℚ) (requestId : Option String)
  | abortError
  | networkError (message : String)
  deriving Repr, DecidableEq

/-- The retryable set `RETRYABLE_STATUS_CODES` (client.ts:23). -/
def RETRYABLE_STATUS_CODES : List Nat := [429, 500, 502, 503, 504]

/-- What the engine resolves or rejects with. -/
inductive ReqResult where
  | returned (v : Option ErrBody)
  | thrown (e : NError)
  | thrownRaw (message : String)
  deriving Repr, DecidableEq

/-- One attempt either settles the call or records `lastError` and
continues the loop. -/
inductive Step where
  | done (r : ReqResult)
  | retry (e : LastErr)
  deriving Repr, DecidableEq

/-- Classification of one attempt's outcome, merging the `try` body and the
`catch` of `NotificaClient.request` (client.ts:147-241).  `2xx` resolves
(204 with no value; a 2xx body that fails to parse falls to the generic
catch).  `429` → `RateLimitError`, retried while attempts remain.  A
retryable 5xx with attempts remaining records a `server_error` `ApiError`
and continues.  `422` → `ValidationError`.  Any other status → generic
`ApiError` with fallback code `api_error`.  An `AbortError` is a timeout
(retried); other transport errors are recorded raw and retried, or wrapped
into `NotificaError` on the last attempt. -/
def classifyAttempt (maxRetries attempt timeoutMs : Nat) (o : FetchOutcome) : Step :=
  match o with
  | .response status json retryAfter requestId =>
    if 200 ≤ status ∧ status ≤ 299 then
      if status = 204 then .done (.returned none)
      else
        match json with
        | .ok v => .done (.returned (some v))
        | .error m =>
          if attempt < maxRetries then .retry (.raw m)
          else .done (.thrown (.notificaError ("Request failed: " ++ m)))
    else
      let errorBody : Option ErrBody := json.toOption
      if status = 429 then
        let e := NError.rateLimitError (msgOrD errorBody "Rate limit exceeded")
          retryAfter requestId
        if attempt < maxRetries then .retry (.nerr e) else .done (.thrown e)
      else if status ∈ RETRYABLE_STATUS_CODES ∧ attempt < maxRetries then
        .retry (.nerr (.apiError
          (msgOrD errorBody ("Server error (" ++ toString status ++ ")"))
          status (codeOrD errorBody "server_error") (detailsOrD errorBody) requestId))
      else if status = 422 then
        .done (.thrown (.validationError (msgOrD errorBody "Validation failed")
          (detailsOrD errorBody) requestId))
      else
        .done (.thrown (.apiError
          (msgOrD errorBody ("API error (" ++ toString status ++ ")"))
          status (codeOrD errorBody "api_error") (detailsOrD errorBody) requestId))
  | .abortError =>
    if attempt < maxRetries then .retry (.nerr (.timeoutError timeoutMs))
    else .done (.thrown (.timeoutError timeoutMs))
  | .networkError m =>
    if attempt < maxRetries then .retry (.raw m)
    else .done (.thrown (.notificaError ("Request failed: " ++ m)))

/-- The `throw lastError ?? new NotificaError('Request failed after max
retries')` fallback after the loop (client.ts:245). -/
def finalThrow : Option LastErr → ReqResult
  | some (.nerr e) => .thrown e
  | some (.raw m) => .thrownRaw m
  | none => .thrown (.notificaError "Request failed after max retries")

/-- Execution trace of one `request()` call: the settled result, how many
HTTP calls were issued, and how many timeout timers were scheduled and
cleared. -/
structure ReqTrace where
  result : ReqResult
  fetchCalls : Nat
  timersSet : Nat
  timersCleared : Nat
  deriving Repr, DecidableEq

/-- The retry loop of `NotificaClient.request` (client.ts:130-245).  `fuel`
is the number of loop iterations still allowed (`maxRetries + 1` at entry);
`attempt` is the loop counter; `signal` gives the caller signal's aborted
state at the start of each attempt (`none` when no signal was passed).
Each iteration schedules a timeout timer; a pre-aborted signal clears it
and throws `NotificaError "Request aborted"` without fetching; otherwise
the attempt's outcome is classified and the loop either settles or
continues with the recorded `lastError`.  Every exit path clears the
iteration's timer. -/
def requestAux (maxRetries timeoutMs : Nat) (signal : Option (Nat → Bool))
    (outcomes : Nat → FetchOutcome) :
    Nat → Nat → Option LastErr → ReqTrace
  | 0, _, lastError => ⟨finalThrow lastError, 0, 0, 0⟩
  | fuel + 1, attempt, _lastError =>
    if (match signal with | some f => f attempt | none => false) then
      ⟨.thrown (.notificaError "Request aborted"), 0, 1, 1⟩
    else
      match classifyAttempt maxRetries attempt timeoutMs (outcomes attempt) with
      | .done r => ⟨r, 1, 1, 1⟩
      | .retry e =>
        let t := requestAux maxRetries timeoutMs signal outcomes fuel
          (attempt + 1) (some e)
        ⟨t.result, t.fetchCalls + 1, t.timersSet + 1, t.timersCleared + 1⟩

/-- A full `request()` call: the loop entered at attempt 0 with
`maxRetries + 1` iterations allowed and no `lastError`. -/
def request (maxRetries timeoutMs : Nat) (signal : Option (Nat → Bool))
    (outcomes : Nat → FetchOutcome) : ReqTrace :=
  requestAux maxRetries timeoutMs signal outcomes (maxRetries + 1) 0 none

/-- An outcome that is a response whose status is in the retryable set. -/
def isRetryableFailure : FetchOutcome → Bool
  | .response s _ _ _ => decide (s ∈ RETRYABLE_STATUS_CODES)
  | _ => false

/-- An outcome that is a response with a 5xx status from
`{500, 502, 503, 504}`. -/
def isServerErrorResponse : FetchOutcome → Bool
  | .response s _ _ _ => decide (s ∈ ([500, 502, 503, 504] : List Nat))
  | _ => false

/-- An outcome on which the attempt resolves: a 2xx response that is a 204
or whose body parses. -/
def isSuccessOutcome : FetchOutcome → Bool
  | .response s json _ _ =>
    decide (200 ≤ s ∧ s ≤ 299) && (decide (s = 204) ||
      (match json with | .ok _ => true | .error _ => false))
  | _ => false

/-- Whether an attempt with this outcome continues the loop. -/
def stepRetries (maxRetries attempt timeoutMs : Nat) (o : FetchOutcome) : Bool :=
  match classifyAttempt maxRetries attempt timeoutMs o with
  | .retry _ => true
  | .done _ => false

-- ── Pagination iterator ─────────────────────────────

/-- `PaginationMeta` (types/common.ts): an opaque cursor or `null`, and the
`has_more` flag. -/
structure PageMeta where
  cursor : Option String
  hasMore : Bool
  deriving Repr, DecidableEq

/-- One list response page; items abstracted to strings. -/
structure Page where
  data : List String
  meta : PageMeta
  deriving Repr, DecidableEq

/-- The cursor update of `NotificaClient.paginate` (client.ts:101-103):
`cursor = response.meta.has_more && response.meta.cursor ? response.meta.cursor
: undefined` — JavaScript truthiness, so a `null` or empty-string cursor
yields `undefined` even when `has_more` is `true`. -/
def nextCursor (p : Page) : Option String :=
  if p.meta.hasMore && jsTruthyOptStr p.meta.cursor then p.meta.cursor else none

/-- The do-while traversal of `NotificaClient.paginate` (client.ts:90-105)
against a server mapping the (optional) cursor query parameter to a page.
Returns the cursor parameter of every fetch issued, in order, and the
items yielded, in order.  `fuel` bounds the number of fetches so the model
is total (the generator itself loops as long as `nextCursor` is defined). -/
def paginateAux (server : Option String → Page) :
    Nat → Option String → List (Option String) × List String
  | 0, _ => ([], [])
  | fuel + 1, cursor =>
    let page := server cursor
    match nextCursor page with
    | some c =>
      let rest := paginateAux server fuel (some c)
      (cursor :: rest.1, page.data ++ rest.2)
    | none => ([cursor], page.data)

/-- A full `paginate()` traversal: first fetch carries no cursor. -/
def paginate (server : Option String → Page) (fuel : Nat) :
    List (Option String) × List String :=
  paginateAux server fuel none

-- ── Concrete scenario data used by witnesses/counterexamples ──

/-- A crypto oracle whose digest is always 32 zero bytes. -/
def zeroDigestCrypto : Crypto := ⟨fun _ _ => some (List.replicate 32 0)⟩

/-- A crypto oracle that always fails (platform crypto throwing). -/
def failingCrypto : Crypto := ⟨fun _ _ => none⟩

/-- Sixty-four `'0'` characters: the hex rendering of 32 zero bytes. -/
def sixtyFourZeros : String := String.mk (List.replicate 64 '0')

/-- An environment answering every attempt with a bare 500 whose body does
not parse. -/
def always500 : Nat → FetchOutcome :=
  fun _ => .response 500 (.error "Unexpected token") none none

/-- An environment whose first attempt gets a 502 and whose second
resolves with a 200. -/
def then200 : Nat → FetchOutcome := fun i =>
  if i = 0 then .response 502 (.error "bad gateway") none none
  else .response 200 (.ok {}) none none

/-- A server that reports more pages but returns a `null` cursor. -/
def hasMoreNullCursorServer : Option String → Page :=
  fun _ => ⟨["a"], ⟨none, true⟩⟩

/-- A two-page server: first page points at cursor `p2`, second page is
final. -/
def twoPageServer : Option String → Page := fun c =>
  match c with
  | none => ⟨["a", "b"], ⟨some "p2", true⟩⟩
  | some _ => ⟨["c"], ⟨none, false⟩⟩

-- ── General bitwise/list lemmas ─────────────────────

theorem lor_eq_zero_iff (a b : Nat) : a ||| b = 0 ↔ a = 0 ∧ b = 0 := by
  constructor
  · intro h
    have key : ∀ i, Nat.testBit a i = false ∧ Nat.testBit b i = false := by
      intro i
      have hbit := congrArg (fun n => Nat.testBit n i) h
      simp only [Nat.testBit_or, Nat.zero_testBit] at hbit
      exact Bool.or_eq_false_iff.mp hbit
    constructor
    · exact Nat.eq_of_testBit_eq fun i => by
        simp only [Nat.zero_testBit]; exact (key i).1
    · exact Nat.eq_of_testBit_eq fun i => by
        simp only [Nat.zero_testBit]; exact (key i).2
  · rintro ⟨rfl, rfl⟩; rfl

theorem foldl_lor_eq_zero (l : List Nat) : ∀ acc : Nat,
    l.foldl (fun r d => r ||| d) acc = 0 ↔ acc = 0 ∧ ∀ x ∈ l, x = 0 := by
  induction l with
  | nil => intro acc; simp
  | cons x xs ih =>
    intro acc
    simp only [List.foldl_cons, List.mem_cons]
    rw [ih, lor_eq_zero_iff]
    constructor
    · rintro ⟨⟨h1, h2⟩, h3⟩
      exact ⟨h1, fun y hy => hy.elim (fun he => he ▸ h2) (h3 y)⟩
    · rintro ⟨h1, h2⟩
      exact ⟨⟨h1, h2 x (Or.inl rfl)⟩, fun y hy => h2 y (Or.inr hy)⟩

theorem zipWith_xor_all_zero_iff : ∀ ua ub : List Nat, ua.length = ub.length →
    ((∀ x ∈ List.zipWith (fun x y => x ^^^ y) ua ub, x = 0) ↔ ua = ub) := by
  intro ua
  induction ua with
  | nil =>
    intro ub h
    cases ub with
    | nil => simp
    | cons b bs => simp at h
  | cons a as ih =>
    intro ub h
    cases ub with
    | nil => simp at h
    | cons b bs =>
      simp only [List.zipWith_cons_cons, List.mem_cons, List.cons.injEq]
      have hlen : as.length = bs.length := by
        simpa using h
      constructor
      · intro hall
        refine ⟨Nat.xor_eq_zero.mp (hall _ (Or.inl rfl)), ?_⟩
        exact (ih bs hlen).mp fun x hx => hall x (Or.inr hx)
      · rintro ⟨rfl, rfl⟩
        intro x hx
        rcases hx with he | hx
        · rw [he]; exact Nat.xor_eq_zero.mpr rfl
        · exact ((ih _ rfl).mpr rfl) x hx

theorem xorAccum_eq_zero_iff (ua ub : List Nat) (h : ua.length = ub.length) :
    xorAccum ua ub = 0 ↔ ua = ub := by
  unfold xorAccum
  rw [foldl_lor_eq_zero]
  simp only [true_and]
  exact zipWith_xor_all_zero_iff ua ub h

-- ── UTF-16 code-unit lemmas ─────────────────────────

theorem utf16Units_ne_nil (c : Char) : utf16Units c ≠ [] := by
  unfold utf16Units
  split <;> simp

theorem char_toNat_lt (c : Char) : c.toNat < 0x110000 := by
  have hdef : c.toNat = c.val.toNat := rfl
  rcases c.valid with h | ⟨h1, h2⟩ <;> omega

theorem char_not_surrogate (c : Char) : c.toNat < 0xD800 ∨ 0xDFFF < c.toNat := by
  have hdef : c.toNat = c.val.toNat := rfl
  rcases c.valid with h | ⟨h1, h2⟩ <;> omega

theorem char_eq_of_toNat_eq (a b : Char) (h : a.toNat = b.toNat) : a = b := by
  apply Char.ext
  exact UInt32.toNat.inj h

theorem utf16Units_append_inj (c1 c2 : Char) (t1 t2 : List Nat)
    (h : utf16Units c1 ++ t1 = utf16Units c2 ++ t2) : c1 = c2 ∧ t1 = t2 := by
  have hv1 := char_toNat_lt c1
  have hv2 := char_toNat_lt c2
  have hs1 := char_not_surrogate c1
  have hs2 := char_not_surrogate c2
  unfold utf16Units at h
  by_cases h1 : c1.toNat < 0x10000 <;> by_cases h2 : c2.toNat < 0x10000
  · rw [if_pos h1, if_pos h2] at h
    simp only [List.cons_append, List.nil_append, List.cons.injEq] at h
    exact ⟨char_eq_of_toNat_eq c1 c2 h.1, h.2⟩
  · rw [if_pos h1, if_neg h2] at h
    simp only [List.cons_append, List.nil_append, List.cons.injEq] at h
    omega
  · rw [if_neg h1, if_pos h2] at h
    simp only [List.cons_append, List.nil_append, List.cons.injEq] at h
    omega
  · rw [if_neg h1, if_neg h2] at h
    simp only [List.cons_append, List.nil_append, List.cons.injEq] at h
    obtain ⟨hd, hm, ht⟩ := h
    refine ⟨char_eq_of_toNat_eq c1 c2 ?_, ht⟩
    omega

theorem flatMap_utf16_inj : ∀ l1 l2 : List Char,
    l1.flatMap utf16Units = l2.flatMap utf16Units → l1 = l2 := by
  intro l1
  induction l1 with
  | nil =>
    intro l2 h
    cases l2 with
    | nil => rfl
    | cons c cs =>
      simp only [List.flatMap_nil, List.flatMap_cons] at h
      cases hu : utf16Units c with
      | nil => exact absurd hu (utf16Units_ne_nil c)
      | cons u us => rw [hu] at h; simp at h
  | cons c cs ih =>
    intro l2 h
    cases l2 with
    | nil =>
      simp only [List.flatMap_nil, List.flatMap_cons] at h
      cases hu : utf16Units c with
      | nil => exact absurd hu (utf16Units_ne_nil c)
      | cons u us => rw [hu] at h; simp at h
    | cons d ds =>
      simp only [List.flatMap_cons] at h
      obtain ⟨hc, ht⟩ := utf16Units_append_inj c d _ _ h
      rw [hc, ih ds ht]

theorem strUtf16_inj (a b : String) (h : strUtf16 a = strUtf16 b) : a = b := by
  have hd := flatMap_utf16_inj a.data b.data h
  cases a; cases b; simp_all

theorem timingSafeEqual_len_ne (a b : String)
    (h : (strUtf16 a).length ≠ (strUtf16 b).length) : timingSafeEqual a b = false := by
  unfold timingSafeEqual
  rw [if_pos h]

theorem timingSafeEqual_eq_iff (a b : String) :
    timingSafeEqual a b = true ↔ a = b := by
  by_cases h : (strUtf16 a).length = (strUtf16 b).length
  · unfold timingSafeEqual
    rw [if_neg (not_not_intro h)]
    simp only [beq_iff_eq]
    constructor
    · intro hz
      exact strUtf16_inj a b ((xorAccum_eq_zero_iff _ _ h).mp hz)
    · intro he
      subst he
      exact (xorAccum_eq_zero_iff _ _ rfl).mpr rfl
  · rw [timingSafeEqual_len_ne a b h]
    constructor
    · intro hfalse; exact absurd hfalse (by simp)
    · intro he; subst he; exact absurd rfl h

-- ── C8: the timing-safe comparator ──────────────────

/-- C8: for all strings `a` and `b`, `timingSafeEqual` returns `false`
whenever the (UTF-16) lengths differ, and for equal-length inputs the
XOR-accumulated mismatch flag is zero exactly when the strings are
identical — so the comparator returns `true` iff `a = b`.  (The definition
of `timingSafeEqual` folds over every position with no early return.) -/
theorem timingSafeEqual_spec (a b : String) :
    ((strUtf16 a).length ≠ (strUtf16 b).length → timingSafeEqual a b = false)
    ∧ (timingSafeEqual a b = true ↔ a = b) :=
  ⟨timingSafeEqual_len_ne a b, timingSafeEqual_eq_iff a b⟩

/-- Witness for C8 at concrete inputs. -/
theorem timingSafeEqual_spec_witness :
    timingSafeEqual "abc" "abc" = true ∧ timingSafeEqual "ab" "abc" = false :=
  ⟨(timingSafeEqual_spec "abc" "abc").2.mpr rfl,
   (timingSafeEqual_spec "ab" "abc").1 (by decide)⟩

-- ── Hex rendering lemmas ────────────────────────────

theorem strUtf16_append (a b : String) :
    strUtf16 (a ++ b) = strUtf16 a ++ strUtf16 b := by
  unfold strUtf16
  rw [String.data_append]
  exact List.flatMap_append a.data b.data utf16Units

theorem foldl_append_str (l : List String) : ∀ a b : String,
    List.foldl (fun r s => r ++ s) (a ++ b) l
      = a ++ List.foldl (fun r s => r ++ s) b l := by
  induction l with
  | nil => intro a b; simp
  | cons x xs ih => intro a b; simp only [List.foldl_cons, String.append_assoc, ih]

theorem string_join_cons (a : String) (l : List String) :
    String.join (a :: l) = a ++ String.join l := by
  show List.foldl (fun r s => r ++ s) ("" ++ a) l = a ++ String.join l
  have h1 : ("" : String) ++ a = a ++ "" := by simp
  rw [h1, foldl_append_str]
  rfl

set_option maxRecDepth 8192 in
theorem hexByte_utf16_len : ∀ b : Nat, b < 256 →
    (strUtf16 (padStart2 (jsToString16 b))).length = 2 := by decide

theorem strUtf16_toHex_len (bytes : List Nat) (hb : ∀ b ∈ bytes, b < 256) :
    (strUtf16 (toHex bytes)).length = 2 * bytes.length := by
  induction bytes with
  | nil => rfl
  | cons b bs ih =>
    unfold toHex
    rw [List.map_cons, string_join_cons, strUtf16_append, List.length_append]
    have h1 := hexByte_utf16_len b (hb b (List.mem_cons_self b bs))
    have h2 : (strUtf16 (toHex bs)).length = 2 * bs.length :=
      ih fun x hx => hb x (List.mem_cons_of_mem b hx)
    unfold toHex at h2
    rw [h1, h2, List.length_cons]
    ring

-- ── C3: verify never throws; empty inputs short-circuit ──

/-- C3 (amended): `verify` is total — a crypto failure inside the `try` is
caught and yields `false` — and an empty *string* payload, empty signature
or empty secret short-circuits to `(false, 0)`: no digest is computed.
(An empty *byte* payload is truthy in JavaScript and is not
short-circuited; see the counterexample.) -/
theorem verify_short_circuit (c : Crypto) (p : Payload) (sig sec : String) :
    ((p = .str "" ∨ sig = "" ∨ sec = "") → verifyTrace c p sig sec = (false, 0))
    ∧ ((∀ k m, c.hmacSha256 k m = none) → verify c p sig sec = false) := by
  constructor
  · intro h
    have hg : p.isTruthy = false ∨ sig = "" ∨ sec = "" := by
      rcases h with h | h | h
      · left; rw [h]; simp [Payload.isTruthy]
      · right; left; exact h
      · right; right; exact h
    unfold verifyTrace
    rw [if_pos hg]
  · intro hnone
    unfold verify verifyTrace
    by_cases hg : p.isTruthy = false ∨ sig = "" ∨ sec = ""
    · rw [if_pos hg]
    · rw [if_neg hg, hnone]

/-- Witness for C3 (amended) at concrete inputs. -/
theorem verify_short_circuit_witness :
    verifyTrace failingCrypto (.str "") "sig" "secret" = (false, 0)
    ∧ verify failingCrypto (.str "payload") "sig" "secret" = false :=
  ⟨(verify_short_circuit failingCrypto (.str "") "sig" "secret").1 (Or.inl rfl),
   (verify_short_circuit failingCrypto (.str "payload") "sig" "secret").2
     (fun _ _ => rfl)⟩

/-- C3 counterexample: an *empty byte payload* is truthy in JavaScript, so
`verify` does not short-circuit on it — the digest is computed (count 1)
and, for the signature matching the digest of the empty message, the
result is even `true`, not `false`. -/
theorem verify_empty_bytes_counterexample :
    verifyTrace zeroDigestCrypto (.bytes []) sixtyFourZeros "secret" = (true, 1) := by
  decide

-- ── C9: signatures of the wrong length are rejected ──

/-- C9: assuming the crypto oracle behaves like HMAC-SHA256 (digests are
32 bytes, each below 256), every digest is rendered as exactly 64 hex
UTF-16 units, and `verify` returns `false` for every signature whose
UTF-16 length is not 64, before any content comparison. -/
theorem verify_hex_length_guard (c : Crypto) (p : Payload) (sig sec : String)
    (hc : ∀ k m d, c.hmacSha256 k m = some d → d.length = 32 ∧ ∀ b ∈ d, b < 256)
    (hsig : (strUtf16 sig).length ≠ 64) :
    (∀ k m d, c.hmacSha256 k m = some d → (strUtf16 (toHex d)).length = 64)
    ∧ verify c p sig sec = false := by
  have hex64 : ∀ k m d, c.hmacSha256 k m = some d →
      (strUtf16 (toHex d)).length = 64 := by
    intro k m d hd
    obtain ⟨hl, hb⟩ := hc k m d hd
    rw [strUtf16_toHex_len d hb, hl]
  refine ⟨hex64, ?_⟩
  unfold verify verifyTrace
  by_cases hg : p.isTruthy = false ∨ sig = "" ∨ sec = ""
  · rw [if_pos hg]
  · rw [if_neg hg]
    cases hcall : c.hmacSha256 (utf8Encode sec) p.toBytes with
    | none => rfl
    | some d =>
      show timingSafeEqual (toHex d) sig = false
      apply timingSafeEqual_len_ne
      rw [hex64 _ _ d hcall]
      exact fun he => hsig he.symm

/-- Witness for C9 at concrete inputs. -/
theorem verify_hex_length_guard_witness :
    (strUtf16 "abc").length ≠ 64
    ∧ verify zeroDigestCrypto (.str "x") "abc" "s" = false := by
  refine ⟨by decide, ?_⟩
  refine (verify_hex_length_guard zeroDigestCrypto (.str "x") "abc" "s" ?_ (by decide)).2
  intro k m d hd
  have hrep : List.replicate 32 0 = d := Option.some.inj hd
  rw [← hrep]
  exact ⟨by decide, by decide⟩

-- ── C5/C6: the backoff policy ───────────────────────

/-- C5: a recorded `RateLimitError` with a non-null `retryAfter` hint makes
the delay exactly the hint converted to milliseconds, overriding the
exponential policy; a hint of `0` gives a delay of `0` ms (immediate
retry). -/
theorem backoff_rate_limit_hint (attempt : Nat) (m : String) (r : ℚ)
    (rid : Option String) (rand : ℚ) :
    backoffDelayMs attempt (some (.nerr (.rateLimitError m (some r) rid))) rand
      = r * 1000
    ∧ backoffDelayMs attempt (some (.nerr (.rateLimitError m (some 0) rid))) rand
      = 0 := by
  constructor
  · rfl
  · norm_num [backoffDelayMs]

theorem backoff_no_hint_eq (attempt : Nat) (le : Option LastErr) (rand : ℚ)
    (hh : hasRetryHint le = false) :
    backoffDelayMs attempt le rand
      = 500 * 2 ^ (attempt - 1) + rand * (500 * 2 ^ (attempt - 1)) * (1/2) := by
  cases le with
  | none => rfl
  | some e =>
    cases e with
    | raw m => rfl
    | nerr ne =>
      cases ne with
      | notificaError m => rfl
      | apiError m s c d r => rfl
      | validationError m d r => rfl
      | timeoutError t => rfl
      | rateLimitError m ra rid =>
        cases ra with
        | none => rfl
        | some q => simp [hasRetryHint] at hh

/-- C6: without a rate-limit hint the delay is
`base + rand * base * 0.5` with `base = 500 * 2^(attempt-1)` and `rand`
the `Math.random()` draw in `[0,1)`; so the jitter lies in `[0, 0.5*base)`,
the delay is bounded below by `base`, and — for the same draw — the delay
at `attempt + 1` is at least the delay at `attempt` (hence the expected
delay is monotonically non-decreasing in the attempt number). -/
theorem backoff_exponential (attempt : Nat) (le : Option LastErr) (rand : ℚ)
    (ha : 1 ≤ attempt) (hh : hasRetryHint le = false)
    (h0 : 0 ≤ rand) (h1 : rand < 1) :
    backoffDelayMs attempt le rand
      = 500 * 2 ^ (attempt - 1) + rand * (500 * 2 ^ (attempt - 1)) * (1/2)
    ∧ 500 * 2 ^ (attempt - 1) ≤ backoffDelayMs attempt le rand
    ∧ backoffDelayMs attempt le rand
        < 500 * 2 ^ (attempt - 1) + (500 * 2 ^ (attempt - 1)) * (1/2)
    ∧ backoffDelayMs attempt le rand ≤ backoffDelayMs (attempt + 1) le rand := by
  have heq := backoff_no_hint_eq attempt le rand hh
  have heq2 := backoff_no_hint_eq (attempt + 1) le rand hh
  set base : ℚ := 500 * 2 ^ (attempt - 1) with hbase
  have hbpos : 0 < base := by rw [hbase]; positivity
  have hbase2 : (500 : ℚ) * 2 ^ ((attempt + 1) - 1) = 2 * base := by
    rw [hbase]
    have hsucc : (attempt + 1) - 1 = (attempt - 1) + 1 := by omega
    rw [hsucc, pow_succ]
    ring
  refine ⟨heq, ?_, ?_, ?_⟩
  · rw [heq]
    nlinarith [mul_nonneg h0 hbpos.le]
  · rw [heq]
    nlinarith [mul_pos (by linarith : (0:ℚ) < 1 - rand) hbpos]
  · rw [heq, heq2, hbase2]
    nlinarith [mul_nonneg h0 hbpos.le]

/-- Witness for C6 at `attempt = 1`, `rand = 1/2`. -/
theorem backoff_exponential_witness : backoffDelayMs 1 none (1/2) = 625 := by
  have h := (backoff_exponential 1 none (1/2) (by norm_num) rfl
    (by norm_num) (by norm_num)).1
  rw [h]
  norm_num

-- ── C7: the Idempotency-Key header ──────────────────

/-- C7 (amended): on `POST`, a *truthy* (non-empty) caller-supplied
idempotency key is attached verbatim; with no truthy override the header
is the generated key when `autoIdempotency` is on and absent when it is
off; `GET`/`PUT`/`PATCH`/`DELETE` never carry the header; and two POSTs
with distinct generated keys (and no truthy override, auto on) carry
distinct header values. -/
theorem idempotency_header_policy (cfg : Config) (options : Option ReqOptions)
    (g g2 : String) :
    (∀ k, optIdemKey options = some k → k ≠ "" →
      getHeader (buildHeaders cfg "POST" options g) "Idempotency-Key" = some k)
    ∧ (jsTruthyOptStr (optIdemKey options) = false → cfg.autoIdempotency = true →
      getHeader (buildHeaders cfg "POST" options g) "Idempotency-Key" = some g)
    ∧ (jsTruthyOptStr (optIdemKey options) = false → cfg.autoIdempotency = false →
      getHeader (buildHeaders cfg "POST" options g) "Idempotency-Key" = none)
    ∧ (∀ method, method ∈ (["GET", "PUT", "PATCH", "DELETE"] : List String) →
      getHeader (buildHeaders cfg method options g) "Idempotency-Key" = none)
    ∧ (jsTruthyOptStr (optIdemKey options) = false → cfg.autoIdempotency = true →
      g ≠ g2 →
      getHeader (buildHeaders cfg "POST" options g) "Idempotency-Key"
        ≠ getHeader (buildHeaders cfg "POST" options g2) "Idempotency-Key") := by
  refine ⟨?_, ?_, ?_, ?_, ?_⟩
  · intro k hk hne
    have hts : jsTruthyOptStr (some k) = true := by
      simp [jsTruthyOptStr, hne]
    simp +decide [buildHeaders, getHeader, hk, hts]
  · intro htruthy hauto
    simp +decide [buildHeaders, getHeader, htruthy, hauto]
  · intro htruthy hauto
    simp +decide [buildHeaders, getHeader, htruthy, hauto]
  · intro method hm
    fin_cases hm <;> simp +decide [buildHeaders, getHeader]
  · intro htruthy hauto hne
    have e1 : getHeader (buildHeaders cfg "POST" options g) "Idempotency-Key"
        = some g := by simp +decide [buildHeaders, getHeader, htruthy, hauto]
    have e2 : getHeader (buildHeaders cfg "POST" options g2) "Idempotency-Key"
        = some g2 := by simp +decide [buildHeaders, getHeader, htruthy, hauto]
    rw [e1, e2]
    exact fun hc => hne (Option.some.inj hc)

/-- Witness for C7 (amended) at concrete inputs. -/
theorem idempotency_header_policy_witness :
    getHeader (buildHeaders ⟨"k", "https://b", 30000, 3, true⟩ "POST" none "uuid-1")
      "Idempotency-Key" = some "uuid-1"
    ∧ getHeader (buildHeaders ⟨"k", "https://b", 30000, 3, true⟩ "GET" none "uuid-1")
      "Idempotency-Key" = none :=
  ⟨(idempotency_header_policy ⟨"k", "https://b", 30000, 3, true⟩ none
      "uuid-1" "uuid-2").2.1 rfl rfl,
   (idempotency_header_policy ⟨"k", "https://b", 30000, 3, true⟩ none
      "uuid-1" "uuid-2").2.2.2.1 "GET" (by simp)⟩

/-- C7 counterexample: a caller-supplied *empty* idempotency key is falsy
in JavaScript, so the supplied value is not used — with `autoIdempotency`
on, the generated key is attached instead of the supplied `""`. -/
theorem idempotency_empty_override_counterexample :
    optIdemKey (some ⟨some "", none⟩) = some ""
    ∧ getHeader (buildHeaders ⟨"k", "https://b", 30000, 3, true⟩ "POST"
        (some ⟨some "", none⟩) "gen-1") "Idempotency-Key" = some "gen-1"
    ∧ some "gen-1" ≠ some ("" : String) := by decide

-- ── Classification lemmas for the retry loop ────────

theorem classify_retry_lt (N attempt t : Nat) (o : FetchOutcome) (e : LastErr)
    (hcl : classifyAttempt N attempt t o = .retry e) : attempt < N := by
  by_contra hlt
  unfold classifyAttempt at hcl
  cases o with
  | response s j ra rid =>
    simp only [hlt, if_false, and_false, ite_false] at hcl
    split at hcl
    · split at hcl
      · exact Step.noConfusion hcl
      · split at hcl
        · exact Step.noConfusion hcl
        · exact Step.noConfusion hcl
    · split at hcl
      · exact Step.noConfusion hcl
      · split at hcl
        · exact Step.noConfusion hcl
        · exact Step.noConfusion hcl
  | abortError => simp only [hlt, if_false, ite_false] at hcl; exact Step.noConfusion hcl
  | networkError m => simp only [hlt, if_false, ite_false] at hcl; exact Step.noConfusion hcl

theorem classify_429_retry (N attempt t : Nat) (j : Except String ErrBody)
    (ra : Option ℚ) (rid : Option String) (hlt : attempt < N) :
    classifyAttempt N attempt t (.response 429 j ra rid) = .retry
      (.nerr (.rateLimitError (msgOrD j.toOption "Rate limit exceeded") ra rid)) := by
  simp +decide [classifyAttempt, hlt]

theorem classify_429_final (N attempt t : Nat) (j : Except String ErrBody)
    (ra : Option ℚ) (rid : Option String) (hlt : ¬ attempt < N) :
    classifyAttempt N attempt t (.response 429 j ra rid) = .done (.thrown
      (.rateLimitError (msgOrD j.toOption "Rate limit exceeded") ra rid)) := by
  simp +decide [classifyAttempt, hlt]

theorem classify_5xx_retry (N attempt t : Nat) (s : Nat) (j : Except String ErrBody)
    (ra : Option ℚ) (rid : Option String)
    (hs : s ∈ ([500, 502, 503, 504] : List Nat)) (hlt : attempt < N) :
    classifyAttempt N attempt t (.response s j ra rid) = .retry
      (.nerr (.apiError (msgOrD j.toOption ("Server error (" ++ toString s ++ ")")) s
        (codeOrD j.toOption "server_error") (detailsOrD j.toOption) rid)) := by
  fin_cases hs <;> simp +decide [classifyAttempt, RETRYABLE_STATUS_CODES, hlt]

theorem classify_5xx_final (N attempt t : Nat) (s : Nat) (j : Except String ErrBody)
    (ra : Option ℚ) (rid : Option String)
    (hs : s ∈ ([500, 502, 503, 504] : List Nat)) (hlt : ¬ attempt < N) :
    classifyAttempt N attempt t (.response s j ra rid) = .done (.thrown
      (.apiError (msgOrD j.toOption ("API error (" ++ toString s ++ ")")) s
        (codeOrD j.toOption "api_error") (detailsOrD j.toOption) rid)) := by
  fin_cases hs <;> simp +decide [classifyAttempt, RETRYABLE_STATUS_CODES, hlt]

theorem classify_4xx (N attempt t : Nat) (s : Nat) (j : Except String ErrBody)
    (ra : Option ℚ) (rid : Option String)
    (hs : s ∈ ([400, 401, 403, 404, 422] : List Nat)) :
    classifyAttempt N attempt t (.response s j ra rid) = .done (.thrown
      (if s = 422 then
        .validationError (msgOrD j.toOption "Validation failed") (detailsOrD j.toOption) rid
      else
        .apiError (msgOrD j.toOption ("API error (" ++ toString s ++ ")")) s
          (codeOrD j.toOption "api_error") (detailsOrD j.toOption) rid)) := by
  fin_cases hs <;> simp +decide [classifyAttempt, RETRYABLE_STATUS_CODES]

theorem classify_retryable_retry (N attempt t : Nat) (o : FetchOutcome)
    (ho : isRetryableFailure o = true) (hlt : attempt < N) :
    ∃ e, classifyAttempt N attempt t o = .retry e := by
  cases o with
  | response s j ra rid =>
    have hs : s ∈ RETRYABLE_STATUS_CODES := by
      simpa [isRetryableFailure] using ho
    simp only [RETRYABLE_STATUS_CODES, List.mem_cons, List.not_mem_nil, or_false] at hs
    rcases hs with rfl | hs
    · exact ⟨_, classify_429_retry N attempt t j ra rid hlt⟩
    · refine ⟨_, classify_5xx_retry N attempt t s j ra rid ?_ hlt⟩
      simpa using hs
  | abortError => simp [isRetryableFailure] at ho
  | networkError m => simp [isRetryableFailure] at ho

theorem classify_retryable_done (N attempt t : Nat) (o : FetchOutcome)
    (ho : isRetryableFailure o = true) (hlt : ¬ attempt < N) :
    ∃ e, classifyAttempt N attempt t o = .done (.thrown e) := by
  cases o with
  | response s j ra rid =>
    have hs : s ∈ RETRYABLE_STATUS_CODES := by
      simpa [isRetryableFailure] using ho
    simp only [RETRYABLE_STATUS_CODES, List.mem_cons, List.not_mem_nil, or_false] at hs
    rcases hs with rfl | hs
    · exact ⟨_, classify_429_final N attempt t j ra rid hlt⟩
    · refine ⟨_, classify_5xx_final N attempt t s j ra rid ?_ hlt⟩
      simpa using hs
  | abortError => simp [isRetryableFailure] at ho
  | networkError m => simp [isRetryableFailure] at ho

theorem classify_success (N attempt t : Nat) (o : FetchOutcome)
    (ho : isSuccessOutcome o = true) :
    ∃ v, classifyAttempt N attempt t o = .done (.returned v) := by
  cases o with
  | response s j ra rid =>
    simp only [isSuccessOutcome, Bool.and_eq_true, Bool.or_eq_true,
      decide_eq_true_eq] at ho
    obtain ⟨hrange, hor⟩ := ho
    simp only [classifyAttempt]
    rw [if_pos hrange]
    by_cases h204 : s = 204
    · rw [if_pos h204]; exact ⟨none, rfl⟩
    · rw [if_neg h204]
      rcases hor with h204t | hjson
      · exact absurd h204t h204
      · cases j with
        | ok v => exact ⟨some v, rfl⟩
        | error m => simp at hjson
  | abortError => simp [isSuccessOutcome] at ho
  | networkError m => simp [isSuccessOutcome] at ho

theorem stepRetries_retry (N attempt t : Nat) (o : FetchOutcome)
    (h : stepRetries N attempt t o = true) :
    ∃ e, classifyAttempt N attempt t o = .retry e := by
  unfold stepRetries at h
  cases hcl : classifyAttempt N attempt t o with
  | done r => rw [hcl] at h; exact Bool.noConfusion h
  | retry e => exact ⟨e, rfl⟩

-- ── Unfolding lemmas for the retry loop ─────────────

theorem requestAux_step_done (N t : Nat) (oc : Nat → FetchOutcome)
    (fuel attempt : Nat) (last : Option LastErr) (r : ReqResult)
    (hcl : classifyAttempt N attempt t (oc attempt) = .done r) :
    requestAux N t none oc (fuel + 1) attempt last = ⟨r, 1, 1, 1⟩ := by
  simp [requestAux, hcl]

theorem requestAux_step_retry (N t : Nat) (oc : Nat → FetchOutcome)
    (fuel attempt : Nat) (last : Option LastErr) (e : LastErr)
    (hcl : classifyAttempt N attempt t (oc attempt) = .retry e) :
    requestAux N t none oc (fuel + 1) attempt last =
      ⟨(requestAux N t none oc fuel (attempt + 1) (some e)).result,
       (requestAux N t none oc fuel (attempt + 1) (some e)).fetchCalls + 1,
       (requestAux N t none oc fuel (attempt + 1) (some e)).timersSet + 1,
       (requestAux N t none oc fuel (attempt + 1) (some e)).timersCleared + 1⟩ := by
  simp [requestAux, hcl]

theorem requestAux_count_all_retryable (N t : Nat) (oc : Nat → FetchOutcome)
    (h : ∀ i, i ≤ N → isRetryableFailure (oc i) = true) :
    ∀ fuel attempt last, attempt + fuel = N + 1 →
      (requestAux N t none oc fuel attempt last).fetchCalls = fuel := by
  intro fuel
  induction fuel with
  | zero => intro attempt last _; rfl
  | succ f ih =>
    intro attempt last hsum
    have hatt : attempt ≤ N := by omega
    by_cases hlt : attempt < N
    · obtain ⟨e, he⟩ := classify_retryable_retry N attempt t (oc attempt)
        (h attempt hatt) hlt
      rw [requestAux_step_retry N t oc f attempt last e he]
      have hrec := ih (attempt + 1) (some e) (by omega)
      simpa using hrec
    · obtain ⟨e, he⟩ := classify_retryable_done N attempt t (oc attempt)
        (h attempt hatt) hlt
      have hf : f = 0 := by omega
      subst hf
      rw [requestAux_step_done N t oc 0 attempt last _ he]

theorem requestAux_success_at (N t : Nat) (oc : Nat → FetchOutcome) :
    ∀ j fuel attempt last, attempt + fuel = N + 1 → attempt + j ≤ N →
      (∀ i, attempt ≤ i → i < attempt + j → stepRetries N i t (oc i) = true) →
      isSuccessOutcome (oc (attempt + j)) = true →
      (requestAux N t none oc fuel attempt last).fetchCalls = j + 1
      ∧ ∃ v, (requestAux N t none oc fuel attempt last).result = .returned v := by
  intro j
  induction j with
  | zero =>
    intro fuel attempt last hsum hle _ hsucc
    obtain ⟨f, rfl⟩ : ∃ f, fuel = f + 1 := ⟨fuel - 1, by omega⟩
    rw [Nat.add_zero] at hsucc
    obtain ⟨v, hv⟩ := classify_success N attempt t (oc attempt) hsucc
    rw [requestAux_step_done N t oc f attempt last _ hv]
    exact ⟨rfl, v, rfl⟩
  | succ jj ih =>
    intro fuel attempt last hsum hle hretry hsucc
    obtain ⟨f, rfl⟩ : ∃ f, fuel = f + 1 := ⟨fuel - 1, by omega⟩
    obtain ⟨e, he⟩ := stepRetries_retry N attempt t (oc attempt)
      (hretry attempt (Nat.le_refl attempt) (by omega))
    rw [requestAux_step_retry N t oc f attempt last e he]
    have hrec := ih f (attempt + 1) (some e) (by omega) (by omega)
      (fun i h1 h2 => hretry i (by omega) (by omega))
      (by have hsh : attempt + 1 + jj = attempt + (jj + 1) := by omega
          rw [hsh]; exact hsucc)
    refine ⟨by simp [hrec.1], ?_⟩
    obtain ⟨v, hv⟩ := hrec.2
    exact ⟨v, hv⟩

theorem requestAux_5xx_exhaust (N t : Nat) (oc : Nat → FetchOutcome)
    (s : Nat) (j : Except String ErrBody) (ra : Option ℚ) (rid : Option String)
    (h5 : ∀ i, i < N → isServerErrorResponse (oc i) = true)
    (hN : oc N = .response s j ra rid)
    (hs : s ∈ ([500, 502, 503, 504] : List Nat)) :
    ∀ fuel attempt last, 1 ≤ fuel → attempt + fuel = N + 1 →
      (requestAux N t none oc fuel attempt last).result = .thrown
        (.apiError (msgOrD j.toOption ("API error (" ++ toString s ++ ")")) s
          (codeOrD j.toOption "api_error") (detailsOrD j.toOption) rid) := by
  intro fuel
  induction fuel with
  | zero => intro attempt last hpos hsum; omega
  | succ f ih =>
    intro attempt last _ hsum
    by_cases hlt : attempt < N
    · have hsrv : isServerErrorResponse (oc attempt) = true := h5 attempt hlt
      obtain ⟨s2, j2, ra2, rid2, ho, hs2⟩ :
          ∃ s2 j2 ra2 rid2, oc attempt = .response s2 j2 ra2 rid2
            ∧ s2 ∈ ([500, 502, 503, 504] : List Nat) := by
        cases hoc : oc attempt with
        | response s2 j2 ra2 rid2 =>
          rw [hoc] at hsrv
          simp only [isServerErrorResponse, decide_eq_true_eq] at hsrv
          exact ⟨s2, j2, ra2, rid2, rfl, hsrv⟩
        | abortError => rw [hoc] at hsrv; simp [isServerErrorResponse] at hsrv
        | networkError m => rw [hoc] at hsrv; simp [isServerErrorResponse] at hsrv
      have hcl : classifyAttempt N attempt t (oc attempt) = .retry
          (.nerr (.apiError (msgOrD j2.toOption ("Server error (" ++ toString s2 ++ ")"))
            s2 (codeOrD j2.toOption "server_error") (detailsOrD j2.toOption) rid2)) := by
        rw [ho]
        exact classify_5xx_retry N attempt t s2 j2 ra2 rid2 hs2 hlt
      rw [requestAux_step_retry N t oc f attempt last _ hcl]
      exact ih (attempt + 1) _ (by omega) (by omega)
    · have hatt : attempt = N := by omega
      subst hatt
      have hcl : classifyAttempt attempt attempt t (oc attempt) = .done (.thrown
          (.apiError (msgOrD j.toOption ("API error (" ++ toString s ++ ")")) s
            (codeOrD j.toOption "api_error") (detailsOrD j.toOption) rid)) := by
        rw [hN]
        exact classify_5xx_final attempt attempt t s j ra rid hs hlt
      rw [requestAux_step_done attempt t oc f attempt last _ hcl]

theorem classify_done_of_zero (t : Nat) (o : FetchOutcome) :
    ∃ r, classifyAttempt 0 0 t o = .done r := by
  cases hcl : classifyAttempt 0 0 t o with
  | done r => exact ⟨r, rfl⟩
  | retry e => exact absurd (classify_retry_lt 0 0 t o e hcl) (by omega)

-- ── C4: attempt counting ────────────────────────────

/-- C4: with `maxRetries = N`, (a) a request whose every attempt is
answered by a retryable status `{429,500,502,503,504}` issues exactly
`N + 1` HTTP calls; (b) a request whose first `k - 1` attempts continue
the loop and whose attempt `k` succeeds (with `k ≤ N + 1`) issues exactly
`k` calls and resolves; (c) a request answered with a status in
`{400,401,403,404,422}` issues exactly 1 call and throws, for every `N`;
(d) `maxRetries = 0` always issues exactly 1 call. -/
theorem retry_attempt_counts :
    (∀ (N t : Nat) (oc : Nat → FetchOutcome),
      (∀ i, i ≤ N → isRetryableFailure (oc i) = true) →
      (request N t none oc).fetchCalls = N + 1)
    ∧ (∀ (N t : Nat) (oc : Nat → FetchOutcome) (k : Nat),
      1 ≤ k → k ≤ N + 1 →
      (∀ i, i < k - 1 → stepRetries N i t (oc i) = true) →
      isSuccessOutcome (oc (k - 1)) = true →
      (request N t none oc).fetchCalls = k
      ∧ ∃ v, (request N t none oc).result = .returned v)
    ∧ (∀ (N t : Nat) (oc : Nat → FetchOutcome) (s : Nat) (j : Except String ErrBody)
        (ra : Option ℚ) (rid : Option String),
      oc 0 = .response s j ra rid → s ∈ ([400, 401, 403, 404, 422] : List Nat) →
      (request N t none oc).fetchCalls = 1
      ∧ ∃ e, (request N t none oc).result = .thrown e)
    ∧ (∀ (t : Nat) (oc : Nat → FetchOutcome),
      (request 0 t none oc).fetchCalls = 1) := by
  refine ⟨?_, ?_, ?_, ?_⟩
  · intro N t oc h
    exact requestAux_count_all_retryable N t oc h (N + 1) 0 none (by omega)
  · intro N t oc k hk1 hkN hretry hsucc
    have hres := requestAux_success_at N t oc (k - 1) (N + 1) 0 none
      (by omega) (by omega)
      (fun i h1 h2 => hretry i (by omega))
      (by have hsh : 0 + (k - 1) = k - 1 := by omega
          rw [hsh]; exact hsucc)
    have hcount : k - 1 + 1 = k := by omega
    rw [hcount] at hres
    exact hres
  · intro N t oc s j ra rid h0 hs
    have hcl : classifyAttempt N 0 t (oc 0) = .done (.thrown
        (if s = 422 then
          .validationError (msgOrD j.toOption "Validation failed")
            (detailsOrD j.toOption) rid
        else
          .apiError (msgOrD j.toOption ("API error (" ++ toString s ++ ")")) s
            (codeOrD j.toOption "api_error") (detailsOrD j.toOption) rid)) := by
      rw [h0]
      exact classify_4xx N 0 t s j ra rid hs
    unfold request
    rw [requestAux_step_done N t oc N 0 none _ hcl]
    exact ⟨rfl, _, rfl⟩
  · intro t oc
    obtain ⟨r, hr⟩ := classify_done_of_zero t (oc 0)
    unfold request
    rw [requestAux_step_done 0 t oc 0 0 none r hr]

/-- Witness for C4 at concrete scenarios. -/
theorem retry_attempt_counts_witness :
    (request 1 30000 none always500).fetchCalls = 2
    ∧ (request 2 30000 none then200).fetchCalls = 2
    ∧ (request 3 30000 none (fun _ => .response 404 (.error "nf") none none)).fetchCalls = 1
    ∧ (request 0 30000 none always500).fetchCalls = 1 :=
  ⟨retry_attempt_counts.1 1 30000 always500 (fun i _ => rfl),
   (retry_attempt_counts.2.1 2 30000 then200 2 (by omega) (by omega)
     (by intro i hi
         have hi0 : i = 0 := by omega
         subst hi0
         decide)
     (by decide)).1,
   (retry_attempt_counts.2.2.1 3 30000 (fun _ => .response 404 (.error "nf") none none)
     404 (.error "nf") none none rfl (by decide)).1,
   retry_attempt_counts.2.2.2 30000 always500⟩

-- ── C1: error thrown after exhausting 5xx retries ───

/-- C1 (amended): when every attempt is answered by a status in
`{500,502,503,504}`, the error finally thrown is an `ApiError` with the
final response's status, whose code is the body's error code when present
and `api_error` otherwise (while the `server_error` fallback code is only
used for the *recorded* errors of retried, non-final attempts). -/
theorem server_error_exhaustion (N t : Nat) (oc : Nat → FetchOutcome)
    (s : Nat) (j : Except String ErrBody) (ra : Option ℚ) (rid : Option String)
    (h5 : ∀ i, i < N → isServerErrorResponse (oc i) = true)
    (hN : oc N = .response s j ra rid)
    (hs : s ∈ ([500, 502, 503, 504] : List Nat)) :
    (request N t none oc).result = .thrown
      (.apiError (msgOrD j.toOption ("API error (" ++ toString s ++ ")")) s
        (codeOrD j.toOption "api_error") (detailsOrD j.toOption) rid) :=
  requestAux_5xx_exhaust N t oc s j ra rid h5 hN hs (N + 1) 0 none
    (by omega) (by omega)

/-- Witness for C1 (amended) at a concrete scenario. -/
theorem server_error_exhaustion_witness :
    (request 1 30000 none always500).result
      = .thrown (.apiError "API error (500)" 500 "api_error" [] none) := by
  have h := server_error_exhaustion 1 30000 always500 500 (.error "Unexpected token")
    none none (fun i _ => rfl) rfl (by decide)
  exact h

/-- C1 counterexample: a single 500 answer with no parseable body is
finally thrown with code `api_error`, not the claimed `server_error`. -/
theorem server_error_code_counterexample :
    (request 0 30000 none always500).result
      = .thrown (.apiError "API error (500)" 500 "api_error" [] none)
    ∧ "api_error" ≠ "server_error" := by
  constructor
  · rfl
  · decide

-- ── C10: pre-aborted cancellation signal ────────────

/-- C10: when the caller's signal is already aborted as an attempt begins,
the engine clears the timer it just scheduled (one set, one cleared),
issues no HTTP call for that attempt, stops the loop regardless of the
remaining retry budget, and throws the plain
`NotificaError "Request aborted"` — which is not a `TimeoutError`. -/
theorem abort_signal_short_circuit (maxRetries timeoutMs fuel attempt : Nat)
    (sig : Nat → Bool) (oc : Nat → FetchOutcome) (last : Option LastErr)
    (h : sig attempt = true) :
    requestAux maxRetries timeoutMs (some sig) oc (fuel + 1) attempt last
      = ⟨.thrown (.notificaError "Request aborted"), 0, 1, 1⟩
    ∧ ∀ ms, (requestAux maxRetries timeoutMs (some sig) oc (fuel + 1) attempt last).result
        ≠ .thrown (.timeoutError ms) := by
  have habort : requestAux maxRetries timeoutMs (some sig) oc (fuel + 1) attempt last
      = ⟨.thrown (.notificaError "Request aborted"), 0, 1, 1⟩ := by
    simp [requestAux, h]
  refine ⟨habort, ?_⟩
  intro ms hc
  rw [habort] at hc
  simp at hc

/-- Witness for C10 at a concrete scenario. -/
theorem abort_signal_short_circuit_witness :
    requestAux 3 30000 (some (fun _ => true)) always500 4 0 none
      = ⟨.thrown (.notificaError "Request aborted"), 0, 1, 1⟩ :=
  (abort_signal_short_circuit 3 30000 3 0 (fun _ => true) always500 none rfl).1

-- ── C2: pagination termination ──────────────────────

/-- C2 (amended): the traversal of `paginate` requests a further page
after a received page exactly when that page has `has_more = true` *and* a
truthy (non-null, non-empty) cursor: `has_more = false` stops it, but so
does a null or empty cursor even when `has_more = true`; when both hold,
the next fetch carries exactly that cursor. -/
theorem paginate_termination (server : Option String → Page) (fuel : Nat)
    (c : Option String) :
    ((server c).meta.hasMore = false →
      paginateAux server (fuel + 1) c = ([c], (server c).data))
    ∧ (jsTruthyOptStr (server c).meta.cursor = false →
      paginateAux server (fuel + 1) c = ([c], (server c).data))
    ∧ (∀ c2, (server c).meta.hasMore = true → (server c).meta.cursor = some c2 →
      c2 ≠ "" →
      paginateAux server (fuel + 1 + 1) c
        = (c :: (paginateAux server (fuel + 1) (some c2)).1,
           (server c).data ++ (paginateAux server (fuel + 1) (some c2)).2)) := by
  refine ⟨?_, ?_, ?_⟩
  · intro h
    have hn : nextCursor (server c) = none := by simp [nextCursor, h]
    simp [paginateAux, hn]
  · intro h
    have hn : nextCursor (server c) = none := by simp [nextCursor, h]
    simp [paginateAux, hn]
  · intro c2 h1 h2 h3
    have hn : nextCursor (server c) = some c2 := by
      simp [nextCursor, h1, h2, jsTruthyOptStr, h3]
    conv_lhs => rw [paginateAux]
    simp [hn]

/-- Witness for C2 (amended) on the two-page server. -/
theorem paginate_termination_witness :
    paginateAux twoPageServer (0 + 1) (some "p2") = ([some "p2"], ["c"])
    ∧ paginateAux twoPageServer (0 + 1 + 1) none
      = (none :: (paginateAux twoPageServer (0 + 1) (some "p2")).1,
         (twoPageServer none).data ++ (paginateAux twoPageServer (0 + 1) (some "p2")).2) :=
  ⟨(paginate_termination twoPageServer 0 (some "p2")).1 rfl,
   (paginate_termination twoPageServer 0 none).2.2 "p2" rfl rfl (by decide)⟩

/-- C2 counterexample: a page reporting `has_more = true` with a `null`
cursor stops the traversal — only one fetch happens although more fuel was
available, refuting "hasMore=false is the sole termination condition". -/
theorem paginate_null_cursor_counterexample :
    (hasMoreNullCursorServer none).meta.hasMore = true
    ∧ paginate hasMoreNullCursorServer 5 = ([none], ["a"]) := by
  constructor
  · rfl
  · rfl

end Notifica
